import Mathlib

/- Verification of the routing / orchestration layer of a multi-agent chat hub.

Shallow embedding of the Python source:
  app/graph/workflow.py      (classifier, orchestrator fan-out, sticky routing)
  app/agents/cicp_agent.py   (claims-collection session state machine)
  app/utils/token_counter.py (request-scoped token accumulator)

External LLM calls are modelled as oracle parameters (an `Option` result for
the classifier LLM, an `Except` result for the claims pipeline); everything the
source computes deterministically is translated directly.  Python strings are
modelled as Lean `String`; `str.lower`/`str.strip`/`in` are modelled for the
ASCII range by the helpers below. -/

namespace Maaah

/- ── String helpers (model Python str.lower / str.strip / substring `in`) ── -/

/-- ASCII lower-casing of one character (models Python `str.lower` on ASCII). -/
def lowerChar (c : Char) : Char :=
  if 65 ≤ c.toNat ∧ c.toNat ≤ 90 then Char.ofNat (c.toNat + 32) else c

/-- ASCII upper-casing of one character (models Python `str.upper` on ASCII). -/
def upperChar (c : Char) : Char :=
  if 97 ≤ c.toNat ∧ c.toNat ≤ 122 then Char.ofNat (c.toNat - 32) else c

/-- Lower-case a string, character by character. -/
def lowerStr (s : String) : String := ⟨s.data.map lowerChar⟩

/-- Upper-case a string, character by character. -/
def upperStr (s : String) : String := ⟨s.data.map upperChar⟩

/-- ASCII whitespace, as stripped by Python `str.strip()`. -/
def isWsChar (c : Char) : Bool :=
  (c == ' ') || (c == '\t') || (c == '\n') || (c == '\r') || (c == '\x0b') || (c == '\x0c')

/-- Strip leading and trailing whitespace from a character list. -/
def trimChars (cs : List Char) : List Char :=
  ((cs.dropWhile isWsChar).reverse.dropWhile isWsChar).reverse

/-- Models Python `str.strip()`. -/
def strStrip (s : String) : String := ⟨trimChars s.data⟩

/-- Does the character list start with the given pattern? -/
def takesPre : List Char → List Char → Bool
  | [], _ => true
  | _ :: _, [] => false
  | a :: as, b :: bs => (a == b) && takesPre as bs

/-- Does `needle` occur as a contiguous run inside `hay`? -/
def hasSub : List Char → List Char → Bool
  | n, [] => n.isEmpty
  | n, b :: bs => takesPre n (b :: bs) || hasSub n bs

/-- Models Python `needle in hay` on strings. -/
def strHas (hay needle : String) : Bool := hasSub needle.data hay.data

/-- Models Python `s.startswith(pre)`. -/
def startsB (s pre : String) : Bool := takesPre pre.data s.data

/-- Boolean membership in a list of strings (models Python `x in list`). -/
def listHas : List String → String → Bool
  | [], _ => false
  | b :: bs, a => (b == a) || listHas bs a

/-- Does the (lowered, stripped) message contain any of the hint phrases?
Models Python `any(hint in q for hint in HINTS)`. -/
def anyHint (hints : List String) (q : String) : Bool :=
  hints.any (fun h => strHas q h)

/- ── Path model (Python pathlib `Path(p).name` / `Path(p).suffix`) ── -/

/-- Split a character list on the path separator. -/
def splitSlashAux : List Char → List Char → List (List Char)
  | [], acc => [acc.reverse]
  | c :: cs, acc =>
    if c == '/' then acc.reverse :: splitSlashAux cs []
    else splitSlashAux cs (c :: acc)

/-- Final path component (models `pathlib.Path(p).name` for POSIX paths;
empty and bare-dot components are dropped, as pathlib normalises them). -/
def pathName (p : String) : String :=
  ⟨((splitSlashAux p.data []).filter
      (fun c => !(c.isEmpty) && !(c == ['.']))).getLastD []⟩

/-- Index of the last dot in a character list, if any (Python `str.rfind`). -/
def lastDotIdx (cs : List Char) : Option Nat :=
  match cs.reverse.findIdx? (fun c => c == '.') with
  | none => none
  | some j => some (cs.length - 1 - j)

/-- Models `pathlib.Path(p).suffix`: the extension of the final component,
including the dot; empty when the name has no interior dot. -/
def pathSuffix (p : String) : String :=
  let name := (pathName p).data
  match lastDotIdx name with
  | none => ""
  | some i => if 0 < i ∧ i < name.length - 1 then ⟨name.drop i⟩ else ""

/- ── Classifier constants (app/graph/workflow.py, lines 38-41) ── -/

/-- Source constant `_IMAGE_EXTS`. -/
def imageExts : List String := [".png", ".jpg", ".jpeg", ".gif", ".webp", ".bmp"]

/-- Source constant `_DOC_EXTS`. -/
def docExts : List String := [".txt", ".md", ".pdf", ".csv", ".json", ".docx", ".xlsx"]

/-- Source constant `_VALID_AGENTS` (the fixed vocabulary of 12 agent names). -/
def validAgents : List String :=
  ["general", "rag", "multimodal", "nasa", "weather", "traffic",
   "sql", "viz", "cicp", "ida", "fhir", "banking"]

/- ── Keyword fallback classifier (workflow.py `_keyword_fallback`) ── -/

def nasaKw : List String :=
  ["nasa", "space", "apod", "mars", "rover", "asteroid", "nebula",
   "galaxy", "planet", "satellite", "spacecraft", "rocket", "astronomy",
   "cosmos", "hubble", "james webb", "jwst", "orbit", "comet", "meteor"]

def weatherKw : List String :=
  ["weather", "temperature", "forecast", "rain", "snow", "sunny",
   "cloudy", "humidity", "wind speed", "storm", "climate"]

def trafficKw : List String :=
  ["traffic", "route", "directions", "driving", "commute",
   "drive from", "travel time", "distance from", "eta", "navigation"]

def sqlKw : List String :=
  ["sql", "database", "northwind", "customers", "orders", "products",
   "employees", "suppliers", "total sales", "revenue", "inventory"]

def vizKw : List String :=
  ["chart", "graph", "plot", "visualize", "visualization", "pie chart",
   "bar chart", "line chart", "histogram", "scatter"]

def ragKw : List String :=
  ["document", "policy", "compliance", "guideline", "knowledge base",
   "internal search", "the pdf", "the csv", "retrieve", "uploaded"]

def cicpKw : List String :=
  ["insurance claim", "car claim", "claim form", "damage claim",
   "claim processing", "car insurance", "vehicle claim", "auto claim",
   "cicp", "claim decision", "approve claim", "reject claim"]

def idaKw : List String :=
  ["interior design", "room design", "furniture suggest", "room makeover",
   "decorating", "home styling", "room image", "design this room",
   "ida", "furnish", "room layout", "rtg"]

def bankingKw : List String :=
  ["bank account", "bank balance", "bank transaction", "bank fee",
   "overdraft", "wire transfer", "bank policy", "loan status",
   "credit card balance", "debit card", "fraud alert", "support ticket",
   "banking", "bank branch", "interest rate on", "monthly payment",
   "bank customer", "account balance", "card reward"]

/-- Source `_keyword_fallback(q)`: keyword matcher used when the LLM
classifier fails; `q` is the already lowered and stripped query. -/
def keyword_fallback (q : String) : List String :=
  let agents : List String := []
  let agents := if anyHint nasaKw q then agents ++ ["nasa"] else agents
  let agents := if anyHint weatherKw q then agents ++ ["weather"] else agents
  let agents := if anyHint trafficKw q then agents ++ ["traffic"] else agents
  let agents := if anyHint sqlKw q then agents ++ ["sql"] else agents
  let agents := if anyHint vizKw q then agents ++ ["viz"] else agents
  let agents := if anyHint ragKw q then agents ++ ["rag"] else agents
  let agents := if anyHint cicpKw q then agents ++ ["cicp"] else agents
  let agents := if anyHint idaKw q then agents ++ ["ida"] else agents
  let agents := if anyHint bankingKw q then agents ++ ["banking"] else agents
  if agents.isEmpty then ["general"] else agents

/- ── classify_agents (workflow.py, lines 82-136) ── -/

/-- A conversation message: role plus content (both always written by the
orchestrator when it appends a turn). -/
structure Msg where
  role : String
  content : String
deriving DecidableEq

/-- The explicit RAG override: `q.startswith("rag ") or q.startswith("rag:")`
on the lowered, stripped query. -/
def ragOverride (q : String) : Bool := startsB q "rag " || startsB q "rag:"

/-- Deterministic file-extension seeding (workflow.py lines 102-107):
image extension seeds the vision agent, document extension the retrieval
agent, before the LLM classifier runs. -/
def fileSeed (file : Option String) : List String :=
  match file with
  | none => []
  | some fp =>
    let ext := lowerStr (pathSuffix fp)
    if listHas imageExts ext then ["multimodal"]
    else if listHas docExts ext then ["rag"]
    else []

/-- The semantic-or-fallback stage (workflow.py lines 110-115): `llmOut`
is the oracle for the LLM call in `_llm_classify` — `some parsed` is a
successfully parsed JSON array (each entry lowered and stripped, as the
source does), `none` is any LLM/parse failure, which falls back to the
keyword matcher. -/
def llmOrFallback (q : String) (llmOut : Option (List String)) : List String :=
  match llmOut with
  | some parsed => parsed.map (fun a => strStrip (lowerStr a))
  | none => keyword_fallback q

/-- The raw candidate list accumulated before dedup/validation: the RAG
override short-circuits, otherwise the file seed precedes the semantic
(or fallback) result. -/
def candidateList (query : String) (file : Option String)
    (llmOut : Option (List String)) : List String :=
  let q := strStrip (lowerStr query)
  if ragOverride q then ["rag"] else fileSeed file ++ llmOrFallback q llmOut

/-- First-seen-order deduplication with an accumulator of already-seen
names (models Python `list(dict.fromkeys(agents))`). -/
def dedupFirstAux (seen : List String) : List String → List String
  | [] => []
  | a :: as =>
    if listHas seen a then dedupFirstAux seen as
    else a :: dedupFirstAux (a :: seen) as

def dedupFirst (l : List String) : List String := dedupFirstAux [] l

/-- Dedup (first-seen order, line 118) then validation against the fixed
vocabulary (line 121). -/
def validatedAgents (cand : List String) : List String :=
  (dedupFirst cand).filter (fun a => listHas validAgents a)

/-- Mutual-exclusion cleanup for the claims agent (lines 125-126): CICP
subsumes the generic vision and retrieval agents. -/
def cicpCleanup (agents : List String) : List String :=
  if listHas agents "cicp"
  then agents.filter (fun a => !(a == "multimodal") && !(a == "rag"))
  else agents

/-- Mutual-exclusion cleanup for the design agent (lines 129-130): IDA
subsumes the generic vision agent. -/
def idaCleanup (agents : List String) : List String :=
  if listHas agents "ida"
  then agents.filter (fun a => !(a == "multimodal"))
  else agents

/-- Source `classify_agents(query, file_path, history)`.  The conversation
history is only forwarded to the LLM call, whose outcome is the `llmOut`
oracle, so it does not appear in the deterministic logic below. -/
def classify_agents (query : String) (file : Option String)
    (_history : List Msg) (llmOut : Option (List String)) : List String :=
  let q := strStrip (lowerStr query)
  if ragOverride q then ["rag"]
  else
    let agents := idaCleanup (cicpCleanup
      (validatedAgents (fileSeed file ++ llmOrFallback q llmOut)))
    if agents.isEmpty then ["general"] else agents

/- ── Orchestrator (workflow.py `orchestrate_node`, lines 261-338) ── -/

/-- Python slice `l[-n:]`. -/
def takeRight (n : Nat) (l : List α) : List α := l.drop (l.length - n)

/-- First message with role `assistant` in the given (already reversed)
message list; models the `for msg in reversed(history[-10:])` loop, which
breaks at the first assistant message. -/
def findAssistant : List Msg → Option Msg
  | [] => none
  | m :: ms => if m.role == "assistant" then some m else findAssistant ms

/-- The CICP sticky-session marker check on one assistant message:
`"CICP" in content or "Car Insurance Claim Processing" in content`. -/
def cicpMarker (content : String) : Bool :=
  strHas content "CICP" || strHas content "Car Insurance Claim Processing"

/-- Source lines 272-278: scan the last 10 history messages, newest first,
and test the single most recent assistant message for the CICP marker. -/
def detect_cicp_active (history : List Msg) : Bool :=
  match findAssistant (takeRight 10 history).reverse with
  | some m => cicpMarker m.content
  | none => false

/-- Agent-selection step of `orchestrate_node` (source lines 280-285):
force-route to `cicp` when a claims session is active, otherwise use the
classifier output, supplied here as `classifierOut` so that independence
from it expresses "the classifier is not invoked". -/
def orchestrate_route (history : List Msg) (classifierOut : List String) : List String :=
  if detect_cicp_active history then ["cicp"] else classifierOut

/-- One agent call at the fan-out boundary (source `_call_agent`,
lines 302-309): `behave a` is the oracle for `dispatch` on agent `a` —
`ok` is a normal result, `error` a raised exception, converted into the
inline warning string. -/
def call_agent (behave : String → Except String String) (name : String) :
    String × String :=
  match behave name with
  | .ok r => (name, r)
  | .error e => (name, "⚠ " ++ name ++ " agent error: " ++ e)

/-- Per-agent section header used when combining multi-agent responses
(source line 323). -/
def agent_section (name resp : String) : String :=
  "### 🤖 " ++ upperStr name ++ " Agent\n\n" ++ resp

/-- Response merging (source lines 317-324): a single result is returned
raw, otherwise sections are joined with a separator in result order. -/
def merge_results (results : List (String × String)) : String :=
  match results with
  | [(_, resp)] => resp
  | rs => String.intercalate "\n\n---\n\n" (rs.map (fun nr => agent_section nr.1 nr.2))

/-- The fan-out of `orchestrate_node`: call every selected agent (the
`asyncio.gather` preserves agent order in `results`) and merge.
Errors are absorbed inside `call_agent`, so the fan-out itself always
produces a response — no exception propagates. -/
def orchestrate_fanout (agents : List String)
    (behave : String → Except String String) : String :=
  merge_results (agents.map (call_agent behave))

/- ── Token accumulator (app/utils/token_counter.py) ── -/

/-- The mutable accumulator `_accumulator = {"input": ..., "output": ...}`.
Python integers are unbounded, hence `Nat`. -/
structure TokenAcc where
  input : Nat
  output : Nat
deriving DecidableEq

/-- Source `reset_counter()`: zero both counters. -/
def reset_counter : TokenAcc := ⟨0, 0⟩

/-- Source `add_tokens(response)`: the usage metadata extracted from the
response is modelled as `Option (Nat × Nat)` — `none` when no usage
metadata is found (the function returns without accumulating), otherwise
the `(input_tokens, output_tokens)` pair added under the lock.  Lock-based
mutual exclusion makes each call atomic, so a concurrent execution is some
interleaving, i.e. a permutation, of the add calls. -/
def add_tokens (s : TokenAcc) (meta : Option (Nat × Nat)) : TokenAcc :=
  match meta with
  | none => s
  | some (i, o) => ⟨s.input + i, s.output + o⟩

/-- Source constant `_COST_PER_1K_INPUT = 0.002`, modelled exactly in ℚ. -/
def costPer1kInput : ℚ := 2 / 1000

/-- Source constant `_COST_PER_1K_OUTPUT = 0.008`, modelled exactly in ℚ. -/
def costPer1kOutput : ℚ := 8 / 1000

/-- Python `round(x, 6)`, modelled over exact rationals. -/
def round6 (x : ℚ) : ℚ := ((round (x * 1000000) : ℤ) : ℚ) / 1000000

/-- Shape of the dict returned by `get_totals()`. -/
structure Totals where
  input_tokens : Nat
  output_tokens : Nat
  total_tokens : Nat
  estimated_cost : ℚ
deriving DecidableEq

/-- Source `get_totals()`: totals plus the estimated cost, a fixed linear
function of the two counters (float arithmetic modelled as exact ℚ). -/
def get_totals (s : TokenAcc) : Totals :=
  { input_tokens := s.input
    output_tokens := s.output
    total_tokens := s.input + s.output
    estimated_cost :=
      round6 ((s.input : ℚ) / 1000 * costPer1kInput + (s.output : ℚ) / 1000 * costPer1kOutput) }

/- ── CICP claims agent (app/agents/cicp_agent.py) ── -/

/-- Source `_CLAIM_FORM_HINTS`. -/
def claimFormHints : List String :=
  ["claim form", "claim document", "insurance form", "my claim",
   "here is my claim", "here is the claim", "claim file",
   "the form", "my form", "insurance claim form",
   "uploaded the form", "uploading the form", "this is the form",
   "attached the form", "attaching the form",
   "application form", "claim application"]

/-- Source `_DAMAGE_PHOTO_HINTS`. -/
def damagePhotoHints : List String :=
  ["damage photo", "damage image", "damaged car", "car photo",
   "car image", "vehicle damage", "damage picture", "the damage",
   "here is the damage", "photo of the damage", "photo of damage",
   "picture of the car", "picture of damage", "accident photo",
   "here is the photo", "uploading the photo", "attached the photo",
   "car damage", "vehicle photo"]

/-- Source `_POLICE_REPORT_HINTS`. -/
def policeReportHints : List String :=
  ["police report", "police filing", "fir", "fir report",
   "incident report", "accident report", "police document",
   "here is the police", "the police report", "my police report",
   "filed a police report", "attached the police", "uploading the police",
   "law enforcement report", "officer report"]

/-- Source `_SKIP_POLICE_HINTS`. -/
def skipPoliceHints : List String :=
  ["skip", "no police report", "don\x27t have", "do not have",
   "no report", "wasn\x27t filed", "was not filed", "none",
   "i don\x27t have", "i do not have", "not available",
   "no fir", "skip police", "proceed without"]

/-- The three upload classifications `_classify_upload` can return. -/
inductive UploadKind where
  | claimForm
  | damageImage
  | policeReport
deriving DecidableEq

/-- Source `_classify_upload(file_path, query)` (lines 425-454): message
intent first — police report, then claim form, then damage photo — then
the document-extension fallback; images with no hint stay ambiguous. -/
def classify_upload (file_path query : String) : Option UploadKind :=
  let q := strStrip (lowerStr query)
  let ext := lowerStr (pathSuffix file_path)
  if anyHint policeReportHints q then some .policeReport
  else if anyHint claimFormHints q then some .claimForm
  else if anyHint damagePhotoHints q then some .damageImage
  else if listHas docExts ext then some .claimForm
  else none

/-- The per-session record kept in `_session_files[session_id]`; the
`_last_ambiguous_image` key is the `lastAmbiguousImage` field (absent key
modelled as `none`). -/
structure CicpSession where
  claim_form : Option String
  damage_image : Option String
  police_report : Option String
  police_report_asked : Bool
  police_report_skipped : Bool
  lastAmbiguousImage : Option String
deriving DecidableEq

/-- The all-empty record written on first contact and after a successful
pipeline run (lines 479-485 and 647-653). -/
def initSession : CicpSession :=
  { claim_form := none
    damage_image := none
    police_report := none
    police_report_asked := false
    police_report_skipped := false
    lastAmbiguousImage := none }

/-- Response for an ambiguous image upload (lines 512-522). -/
def ambiguousPrompt (fname : String) : String :=
  "## 🚗 CICP — File Received: **" ++ fname ++ "**\n\n" ++
  "I received an image file but I\x27m not sure what this is:\n\n" ++
  "- 📄 A **scanned claim form** — reply with " ++
  "*\"This is my claim form\"*\n" ++
  "- 📸 A **damaged car photo** — reply with " ++
  "*\"This is the damage photo\"*\n" ++
  "- 🚔 A **police report** — reply with " ++
  "*\"This is the police report\"*\n\n" ++
  "This helps me process your claim correctly!"

/-- Initial instructions when neither artifact is present (lines 548-568). -/
def introPrompt : String :=
  "## 🚗 Car Insurance Claim Processing (CICP)\n\n" ++
  "I can help you process a car insurance claim! To get started, " ++
  "I need **three files**:\n\n" ++
  "1. 📄 **Claim Form** — Upload the insurance claim form " ++
  "(PDF, DOCX, TXT, or a **scanned image** like JPG/PNG)\n" ++
  "2. 📸 **Damaged Car Photo** — Upload a photo of the vehicle damage " ++
  "(PNG, JPG, GIF, or WebP)\n" ++
  "3. 🚔 **Police Report** — Upload the police/incident report " ++
  "(PDF, DOCX, TXT, or scanned image)\n\n" ++
  "Please **attach the claim form** using the 📎 clip icon, " ++
  "then send a message like *\"Here is my claim form\"*.\n\n" ++
  "💡 **Tip:** Since files can be images, always tell me what " ++
  "you\x27re uploading in your message!\n\n" ++
  "Once I have all files, I will:\n" ++
  "- Extract details from your claim form\n" ++
  "- Assess the vehicle damage from the photo\n" ++
  "- Review the police report\n" ++
  "- Check applicable insurance rules\n" ++
  "- Render a final **APPROVE** or **REJECT** decision"

/-- Response when only the claim form has arrived (lines 570-577). -/
def formReceivedPrompt (formName : String) : String :=
  "## 🚗 CICP — Claim Form Received ✅\n\n" ++
  "I\x27ve received your claim form: **" ++ formName ++ "**\n\n" ++
  "Now please **attach a photo of the damaged vehicle** " ++
  "using the 📎 clip icon and send a message like " ++
  "*\"Here is the damage photo\"*."

/-- Response when only the damage photo has arrived (lines 579-586). -/
def photoReceivedPrompt (imgName : String) : String :=
  "## 🚗 CICP — Damage Photo Received ✅\n\n" ++
  "I\x27ve received the damage photo: **" ++ imgName ++ "**\n\n" ++
  "Now please **attach the insurance claim form** " ++
  "(PDF, DOCX, TXT, or scanned image) using the 📎 clip icon " ++
  "and send a message like *\"Here is my claim form\"*."

/-- The police-report request emitted once both artifacts are present
(lines 592-606); this is the `AWAITING_POLICE_REPORT_DECISION` response. -/
def policePrompt (formName imgName : String) : String :=
  "## 🚗 CICP — Claim Form ✅ & Damage Photo ✅\n\n" ++
  "✅ Claim form: **" ++ formName ++ "**\n" ++
  "✅ Damage photo: **" ++ imgName ++ "**\n\n" ++
  "---\n\n" ++
  "### 🚔 Police Report Required\n\n" ++
  "A **police/incident report** is required for claim processing. " ++
  "Please upload it using the 📎 clip icon and send a message like " ++
  "*\"Here is the police report\"*.\n\n" ++
  "**If you do not have a police report**, reply with " ++
  "*\"No police report\"* or *\"Skip\"* — I will still process your " ++
  "claim, but **the absence of a police report will be factored into " ++
  "the decision per insurance policy rules** and may result in " ++
  "rejection."

/-- The caught-pipeline-failure response (lines 657-663): the invoke call
returns this string instead of raising. -/
def processingErrorMsg (exc : String) : String :=
  "## ⚠️ CICP Processing Error\n\n" ++
  "An error occurred while processing your claim: **" ++ exc ++ "**\n\n" ++
  "Please try again or contact support."

/-- Skip-intent step (lines 491-494): with the police report already asked
for and not yet skipped, a skip phrase in a file-less turn marks the
report as skipped. -/
def cicpSkipStep (q : String) (file : Option String) (s : CicpSession) : CicpSession :=
  if s.police_report_asked && !s.police_report_skipped
      && file.isNone && anyHint skipPoliceHints q
  then { s with police_report_skipped := true } else s

/-- Upload-classification step (lines 497-522): a classified upload fills
its slot; an ambiguous image is stashed and the disambiguation prompt is
returned immediately (`Sum.inl` is an early return of the whole invoke). -/
def cicpUploadStep (query : String) (file : Option String) (s : CicpSession) :
    (String × CicpSession) ⊕ CicpSession :=
  match file with
  | none => .inr s
  | some fp =>
    match classify_upload fp query with
    | some .claimForm => .inr { s with claim_form := some fp }
    | some .damageImage => .inr { s with damage_image := some fp }
    | some .policeReport => .inr { s with police_report := some fp }
    | none =>
      if listHas imageExts (lowerStr (pathSuffix fp)) then
        .inl (ambiguousPrompt (pathName fp), { s with lastAmbiguousImage := some fp })
      else .inr s

/-- Re-classification from the message alone (lines 525-539): resolve a
stashed ambiguous image when a file-less turn carries a hint phrase. -/
def cicpReclassifyStep (q : String) (file : Option String) (s : CicpSession) : CicpSession :=
  if file.isNone then
    match s.lastAmbiguousImage with
    | some amb =>
      if anyHint policeReportHints q then
        { s with police_report := some amb, lastAmbiguousImage := none }
      else if anyHint claimFormHints q then
        { s with claim_form := some amb, lastAmbiguousImage := none }
      else if anyHint damagePhotoHints q then
        { s with damage_image := some amb, lastAmbiguousImage := none }
      else s
    | none => s
  else s

/-- The prompt-selection chain over the post-upload session state
(lines 541-606): ask for whichever artifact is missing, ask for the police
report once both artifacts are in (recording that it has been asked), and
otherwise fall through to the pipeline (`Sum.inr`). -/
def cicpRoute (s3 : CicpSession) : (String × CicpSession) ⊕ CicpSession :=
  if !s3.claim_form.isSome && !s3.damage_image.isSome then
    .inl (introPrompt, s3)
  else if s3.claim_form.isSome && !s3.damage_image.isSome then
    .inl (formReceivedPrompt (pathName (s3.claim_form.getD "")), s3)
  else if !s3.claim_form.isSome && s3.damage_image.isSome then
    .inl (photoReceivedPrompt (pathName (s3.damage_image.getD "")), s3)
  else if s3.claim_form.isSome && s3.damage_image.isSome
      && !s3.police_report.isSome && !s3.police_report_skipped then
    .inl (policePrompt (pathName (s3.claim_form.getD "")) (pathName (s3.damage_image.getD "")),
          if !s3.police_report_asked then { s3 with police_report_asked := true } else s3)
  else .inr s3

/-- Everything `invoke` does before the pipeline (lines 477-606):
`Sum.inl` is an early return `(response, session afterwards)`; `Sum.inr s`
means the full pipeline is about to run with session state `s`. -/
def cicpPre (query : String) (file : Option String) (s0 : CicpSession) :
    (String × CicpSession) ⊕ CicpSession :=
  let q := strStrip (lowerStr query)
  let s1 := cicpSkipStep q file s0
  match cicpUploadStep query file s1 with
  | .inl out => .inl out
  | .inr s2 => cicpRoute (cicpReclassifyStep q file s2)

/-- Source `invoke` (lines 461-663).  The five-step LLM pipeline inside the
`try` block is the oracle `pipe`: `ok decision` is a successful run (the
session record is then replaced by the all-empty one, line 647), `error e`
is an exception raised by any pipeline step, caught and turned into the
processing-error response with the session left as it was (line 657). -/
def cicp_invoke (query : String) (file : Option String) (s0 : CicpSession)
    (pipe : Except String String) : String × CicpSession :=
  match cicpPre query file s0 with
  | .inl out => out
  | .inr s =>
    match pipe with
    | .ok decision => (decision, initSession)
    | .error e => (processingErrorMsg e, s)

/-- The session state carried by either outcome of `cicpPre`. -/
def postState : (String × CicpSession) ⊕ CicpSession → CicpSession
  | .inl (_, s) => s
  | .inr s => s

/-- The session invariant of C8: the police report is only ever asked for
once both the claim form and the damage image have been collected. -/
def CicpInv (s : CicpSession) : Prop :=
  s.police_report_asked = true →
    s.claim_form.isSome = true ∧ s.damage_image.isSome = true

/-- The `READY_TO_PROCESS` configuration of C3: both mandatory artifacts
collected and the police report either supplied or explicitly skipped. -/
def ReadyToProcess (s : CicpSession) : Prop :=
  s.claim_form.isSome = true ∧ s.damage_image.isSome = true
  ∧ (s.police_report.isSome = true ∨ s.police_report_skipped = true)

/- ── Basic lemmas about the string helpers ── -/

theorem takesPre_self (n rest : List Char) : takesPre n (n ++ rest) = true := by
  induction n with
  | nil => rfl
  | cons c cs ih => simp [takesPre, ih]

theorem hasSub_cons (n : List Char) (b : Char) (bs : List Char) :
    hasSub n (b :: bs) = (takesPre n (b :: bs) || hasSub n bs) := by
  cases n <;> rfl

theorem hasSub_sandwich (pre mid post : List Char) :
    hasSub mid (pre ++ (mid ++ post)) = true := by
  induction pre with
  | nil =>
    rw [List.nil_append]
    cases mid with
    | nil =>
      cases post with
      | nil => rfl
      | cons p ps => simp [hasSub, takesPre]
    | cons c cs =>
      rw [List.cons_append, hasSub_cons]
      have h := takesPre_self (c :: cs) post
      rw [List.cons_append] at h
      simp [h]
  | cons p ps ih =>
    rw [List.cons_append, hasSub_cons]
    simp [ih]

theorem listHas_iff (l : List String) (a : String) : listHas l a = true ↔ a ∈ l := by
  induction l with
  | nil => simp [listHas]
  | cons b bs ih =>
    simp only [listHas, Bool.or_eq_true, beq_iff_eq, ih, List.mem_cons]
    exact or_congr eq_comm Iff.rfl

/- ────────────────────────── Supporting lemmas ────────────────────────── -/

theorem foldl_add_tokens (s : TokenAcc) (l : List (Nat × Nat)) :
    l.foldl (fun acc p => add_tokens acc (some p)) s =
      ⟨s.input + (l.map Prod.fst).sum, s.output + (l.map Prod.snd).sum⟩ := by
  induction l generalizing s with
  | nil => simp
  | cons p ps ih =>
    cases p with
    | mk i o =>
      rw [List.foldl_cons, ih]
      simp [add_tokens, Nat.add_assoc]

theorem round6_cost (i o : Nat) :
    round6 ((i : ℚ) / 1000 * costPer1kInput + (o : ℚ) / 1000 * costPer1kOutput)
      = (i : ℚ) / 1000 * costPer1kInput + (o : ℚ) / 1000 * costPer1kOutput := by
  have h : ((i : ℚ) / 1000 * costPer1kInput + (o : ℚ) / 1000 * costPer1kOutput) * 1000000
      = ((2 * i + 8 * o : ℤ) : ℚ) := by
    unfold costPer1kInput costPer1kOutput
    push_cast
    ring
  unfold round6
  rw [h, round_intCast, div_eq_iff (by norm_num : (1000000 : ℚ) ≠ 0)]
  exact h.symm

theorem image_not_doc (e : String) (h : listHas imageExts e = true) :
    listHas docExts e = false := by
  rw [listHas_iff] at h
  simp only [imageExts, List.mem_cons, List.not_mem_nil, or_false] at h
  rcases h with h | h | h | h | h | h <;> subst h <;> decide

/- ────────────────────────── Claim theorems ────────────────────────── -/

/-- C9: after one reset followed by any finite multiset of add calls with
counts `(i_k, o_k)`, `get_totals` reports input/output equal to the
respective sums and `total_tokens` equal to their sum, independently of the
interleaving (any permutation of the adds yields the same accumulator),
and `estimated_cost` is the fixed linear function of the two sums with the
configured per-unit rates. -/
theorem token_accumulator_spec (adds : List (Nat × Nat)) :
    get_totals (adds.foldl (fun acc p => add_tokens acc (some p)) reset_counter) =
      { input_tokens := (adds.map Prod.fst).sum
        output_tokens := (adds.map Prod.snd).sum
        total_tokens := (adds.map Prod.fst).sum + (adds.map Prod.snd).sum
        estimated_cost := ((adds.map Prod.fst).sum : ℚ) / 1000 * costPer1kInput
          + ((adds.map Prod.snd).sum : ℚ) / 1000 * costPer1kOutput }
    ∧ ∀ adds' : List (Nat × Nat), adds.Perm adds' →
        adds'.foldl (fun acc p => add_tokens acc (some p)) reset_counter =
          adds.foldl (fun acc p => add_tokens acc (some p)) reset_counter := by
  constructor
  · rw [foldl_add_tokens]
    dsimp only [get_totals, reset_counter]
    rw [Nat.zero_add, Nat.zero_add, round6_cost]
  · intro adds' hperm
    rw [foldl_add_tokens, foldl_add_tokens]
    rw [(hperm.map Prod.fst).sum_eq, (hperm.map Prod.snd).sum_eq]

theorem token_accumulator_spec_witness :
    [((3 : Nat), (4 : Nat)), (1, 2)].foldl (fun acc p => add_tokens acc (some p)) reset_counter =
      [((1 : Nat), (2 : Nat)), (3, 4)].foldl (fun acc p => add_tokens acc (some p)) reset_counter :=
  (token_accumulator_spec [(1, 2), (3, 4)]).2 [(3, 4), (1, 2)] (by decide)

/-- C10: when the message text of an upload matches more than one hint set,
`_classify_upload` resolves by the fixed precedence police report >
claim form > damage photo; with no hints at all, a document-extension file
classifies as a claim form and an image-extension file stays ambiguous
(`none`). -/
theorem classify_upload_precedence (fp query : String) :
    (anyHint policeReportHints (strStrip (lowerStr query)) = true →
      classify_upload fp query = some .policeReport)
    ∧ (anyHint policeReportHints (strStrip (lowerStr query)) = false →
        anyHint claimFormHints (strStrip (lowerStr query)) = true →
        classify_upload fp query = some .claimForm)
    ∧ (anyHint policeReportHints (strStrip (lowerStr query)) = false →
        anyHint claimFormHints (strStrip (lowerStr query)) = false →
        anyHint damagePhotoHints (strStrip (lowerStr query)) = true →
        classify_upload fp query = some .damageImage)
    ∧ (anyHint policeReportHints (strStrip (lowerStr query)) = false →
        anyHint claimFormHints (strStrip (lowerStr query)) = false →
        anyHint damagePhotoHints (strStrip (lowerStr query)) = false →
        listHas docExts (lowerStr (pathSuffix fp)) = true →
        classify_upload fp query = some .claimForm)
    ∧ (anyHint policeReportHints (strStrip (lowerStr query)) = false →
        anyHint claimFormHints (strStrip (lowerStr query)) = false →
        anyHint damagePhotoHints (strStrip (lowerStr query)) = false →
        listHas imageExts (lowerStr (pathSuffix fp)) = true →
        classify_upload fp query = none) := by
  refine ⟨fun h1 => ?_, fun h1 h2 => ?_, fun h1 h2 h3 => ?_,
    fun h1 h2 h3 h4 => ?_, fun h1 h2 h3 h4 => ?_⟩
  · simp [classify_upload, h1]
  · simp [classify_upload, h1, h2]
  · simp [classify_upload, h1, h2, h3]
  · simp [classify_upload, h1, h2, h3, h4]
  · simp [classify_upload, h1, h2, h3, image_not_doc _ h4]

theorem classify_upload_precedence_witness :
    classify_upload "scan.png" "the police report for my claim form" = some .policeReport :=
  (classify_upload_precedence "scan.png" "the police report for my claim form").1 (by decide)

/- ── C4: sticky-session override ── -/

theorem takeRight_getLast? (l : List Msg) (h : l ≠ []) :
    (takeRight 10 l).getLast? = l.getLast? := by
  unfold takeRight
  rw [List.getLast?_drop]
  have hlen : 0 < l.length := List.length_pos.mpr h
  have hlt : ¬ l.length ≤ l.length - 10 := by omega
  simp [hlt]

theorem detect_eq_marker (history : List Msg) (m : Msg)
    (hlast : history.getLast? = some m) (hrole : m.role = "assistant") :
    detect_cicp_active history = cicpMarker m.content := by
  have hne : history ≠ [] := by
    intro h
    subst h
    simp at hlast
  unfold detect_cicp_active
  have h1 : (takeRight 10 history).reverse.head? = some m := by
    rw [List.head?_reverse, takeRight_getLast? _ hne, hlast]
  obtain ⟨rest, hrest⟩ : ∃ rest, (takeRight 10 history).reverse = m :: rest := by
    cases hrev : (takeRight 10 history).reverse with
    | nil =>
      rw [hrev] at h1
      simp at h1
    | cons a as =>
      rw [hrev] at h1
      simp at h1
      exact ⟨as, by rw [h1]⟩
  rw [hrest]
  simp [findAssistant, hrole]

/-- C4: if the most recent assistant turn of the conversation history (the
last message, as appended by the orchestrator) carries the claims-flow
marker, the orchestrator selects exactly `["cicp"]` — independently of the
classifier output, i.e. without invoking the classifier; with no marker
there, the selection is exactly the classifier output. -/
theorem orchestrate_sticky_route (history : List Msg) (classifierOut : List String)
    (m : Msg) (hlast : history.getLast? = some m) (hrole : m.role = "assistant") :
    (cicpMarker m.content = true → orchestrate_route history classifierOut = ["cicp"])
    ∧ (cicpMarker m.content = false → orchestrate_route history classifierOut = classifierOut) := by
  have hd := detect_eq_marker history m hlast hrole
  constructor <;> intro h <;> simp [orchestrate_route, hd, h]

theorem orchestrate_sticky_route_witness :
    orchestrate_route
      [⟨"user", "hi"⟩, ⟨"assistant", "## 🚗 Car Insurance Claim Processing (CICP)"⟩]
      ["general"] = ["cicp"] :=
  (orchestrate_sticky_route _ ["general"]
      ⟨"assistant", "## 🚗 Car Insurance Claim Processing (CICP)"⟩
      (by decide) rfl).1 (by decide)

/- ── C2: fan-out failure isolation ── -/

theorem call_agent_fst (behave : String → Except String String) (a : String) :
    (call_agent behave a).1 = a := by
  unfold call_agent
  cases behave a <;> rfl

theorem strHas_mid (pre mid post : String) : strHas (pre ++ (mid ++ post)) mid = true := by
  unfold strHas
  rw [String.data_append, String.data_append]
  exact hasSub_sandwich _ _ _

theorem merge_results_cons₂ (x y : String × String) (zs : List (String × String)) :
    merge_results (x :: y :: zs) =
      String.intercalate "\n\n---\n\n"
        ((x :: y :: zs).map (fun nr => agent_section nr.1 nr.2)) := by
  cases x
  rfl

/-- C2: when the orchestrator dispatches at least two agents, the merged
response is exactly the per-agent sections joined in classifier-output
order — one section per dispatched agent — where the section of a
non-failing agent carries its normal output and the section of a failing
agent carries an inline warning string that contains the name of that agent; the fan-out itself
is a total function (the per-agent exception is absorbed inside
`call_agent`), so no exception propagates. -/
theorem orchestrate_fanout_spec (agents : List String)
    (behave : String → Except String String) (h2 : 2 ≤ agents.length) :
    orchestrate_fanout agents behave
      = String.intercalate "\n\n---\n\n"
          (agents.map (fun a => agent_section a (call_agent behave a).2))
    ∧ (agents.map (fun a => agent_section a (call_agent behave a).2)).length = agents.length
    ∧ (∀ a r, behave a = .ok r → (call_agent behave a).2 = r)
    ∧ (∀ a e, behave a = .error e →
        (call_agent behave a).2 = "⚠ " ++ a ++ " agent error: " ++ e
        ∧ strHas (call_agent behave a).2 a = true) := by
  have hmap : (List.map (call_agent behave) agents).map (fun nr => agent_section nr.1 nr.2)
      = agents.map (fun a => agent_section a (call_agent behave a).2) := by
    rw [List.map_map]
    exact List.map_congr_left (fun a _ => by
      simp only [Function.comp_apply, call_agent_fst])
  refine ⟨?_, by rw [List.length_map], fun a r h => by simp [call_agent, h],
    fun a e h => ⟨by simp [call_agent, h], ?_⟩⟩
  · cases agents with
    | nil => norm_num at h2
    | cons a as =>
      cases as with
      | nil => norm_num at h2
      | cons b bs =>
        unfold orchestrate_fanout
        rw [List.map_cons, List.map_cons, merge_results_cons₂]
        rw [← List.map_cons (call_agent behave) b bs, ← List.map_cons (call_agent behave) a (b :: bs)]
        rw [hmap]
  · have hval : (call_agent behave a).2 = "⚠ " ++ a ++ " agent error: " ++ e := by
      simp [call_agent, h]
    rw [hval, String.append_assoc, String.append_assoc]
    exact strHas_mid _ _ _

theorem orchestrate_fanout_spec_witness :
    strHas (call_agent (fun a => if a == "viz" then .error "boom" else .ok ("ok-" ++ a)) "viz").2
      "viz" = true :=
  ((orchestrate_fanout_spec ["sql", "viz", "weather"]
      (fun a => if a == "viz" then .error "boom" else .ok ("ok-" ++ a))
      (by decide)).2.2.2 "viz" "boom" (by rfl)).2

/- ── Classifier lemmas (C1, C6, C7) ── -/

theorem dedupFirstAux_sublist_append (xs : List String) :
    ∀ (seen ys : List String),
      (dedupFirstAux seen xs).Sublist (dedupFirstAux seen (xs ++ ys)) := by
  induction xs with
  | nil =>
    intro seen ys
    exact List.nil_sublist _
  | cons a as ih =>
    intro seen ys
    rw [List.cons_append]
    cases hb : listHas seen a with
    | true => simpa [dedupFirstAux, hb] using ih seen ys
    | false =>
      simp only [dedupFirstAux, hb, Bool.false_eq_true, if_false]
      exact List.Sublist.cons₂ a (ih (a :: seen) ys)

theorem dedupFirstAux_nodup (l : List String) :
    ∀ seen : List String,
      (dedupFirstAux seen l).Nodup ∧ ∀ a ∈ dedupFirstAux seen l, listHas seen a = false := by
  induction l with
  | nil => intro seen; simp [dedupFirstAux]
  | cons b bs ih =>
    intro seen
    cases hb : listHas seen b with
    | true => simpa [dedupFirstAux, hb] using ih seen
    | false =>
      simp only [dedupFirstAux, hb, Bool.false_eq_true, if_false]
      obtain ⟨hnd, hmem⟩ := ih (b :: seen)
      refine ⟨List.nodup_cons.mpr ⟨fun hmb => ?_, hnd⟩, fun a ha => ?_⟩
      · have h := hmem b hmb
        simp [listHas] at h
      · rcases List.mem_cons.mp ha with rfl | ha'
        · exact hb
        · cases hsa : listHas seen a with
          | false => rfl
          | true =>
            have h := hmem a ha'
            simp only [listHas, hsa, Bool.or_true] at h
            exact h

theorem mem_dedupFirstAux (l : List String) :
    ∀ (seen : List String) (a : String), a ∈ l → listHas seen a = false →
      a ∈ dedupFirstAux seen l := by
  induction l with
  | nil => intro seen a h; simp at h
  | cons b bs ih =>
    intro seen a hal hseen
    rcases List.mem_cons.mp hal with rfl | hmem
    · simp only [dedupFirstAux, hseen, Bool.false_eq_true, if_false]
      exact List.mem_cons_self _ _
    · cases hb : listHas seen b with
      | true =>
        simp only [dedupFirstAux, hb, if_true]
        exact ih seen a hmem hseen
      | false =>
        by_cases hab : b = a
        · subst hab
          simp only [dedupFirstAux, hb, Bool.false_eq_true, if_false]
          exact List.mem_cons_self _ _
        · simp only [dedupFirstAux, hb, Bool.false_eq_true, if_false]
          refine List.mem_cons.mpr (Or.inr (ih (b :: seen) a hmem ?_))
          simp only [listHas, hseen, Bool.or_false]
          simp [hab]

theorem cicpCleanup_sublist (l : List String) : (cicpCleanup l).Sublist l := by
  unfold cicpCleanup
  by_cases h : listHas l "cicp" = true <;> simp [h]

theorem idaCleanup_sublist (l : List String) : (idaCleanup l).Sublist l := by
  unfold idaCleanup
  by_cases h : listHas l "ida" = true <;> simp [h]

/-- The non-override classifier result is a sublist of the deduplicated
candidate list. -/
theorem cleanups_sublist_dedup (cand : List String) :
    (idaCleanup (cicpCleanup (validatedAgents cand))).Sublist (dedupFirst cand) :=
  ((idaCleanup_sublist _).trans (cicpCleanup_sublist _)).trans
    (List.filter_sublist _)

/-- C1: for every query, optional file, history and classifier-LLM outcome,
`classify_agents` returns a non-empty, duplicate-free list whose every
element belongs to the fixed 12-name vocabulary, and which is a sublist of
(hence preserves the first-seen order of) the deduplicated candidate list,
extended by the `general` fallback. -/
theorem classify_agents_wellformed (query : String) (file : Option String)
    (history : List Msg) (llmOut : Option (List String)) :
    classify_agents query file history llmOut ≠ []
    ∧ (classify_agents query file history llmOut).Nodup
    ∧ (∀ a ∈ classify_agents query file history llmOut, a ∈ validAgents)
    ∧ (classify_agents query file history llmOut).Sublist
        (dedupFirst (candidateList query file llmOut ++ ["general"])) := by
  by_cases hrag : ragOverride (strStrip (lowerStr query)) = true
  · -- explicit RAG override path
    have hcl : classify_agents query file history llmOut = ["rag"] := by
      simp [classify_agents, hrag]
    have hcand : candidateList query file llmOut = ["rag"] := by
      simp [candidateList, hrag]
    rw [hcl, hcand]
    refine ⟨by simp, by simp, by simp [validAgents], ?_⟩
    show ["rag"].Sublist (dedupFirst ["rag", "general"])
    decide
  · -- main path
    have hrag' : ragOverride (strStrip (lowerStr query)) = false :=
      Bool.not_eq_true _ ▸ (by simpa using hrag)
    set cand := candidateList query file llmOut with hcand
    have hcandval : cand = fileSeed file
        ++ llmOrFallback (strStrip (lowerStr query)) llmOut := by
      simp [hcand, candidateList, hrag']
    set X := idaCleanup (cicpCleanup (validatedAgents (fileSeed file
      ++ llmOrFallback (strStrip (lowerStr query)) llmOut))) with hX
    have hcl : classify_agents query file history llmOut =
        if X.isEmpty then ["general"] else X := by
      simp [classify_agents, hrag', hX]
    have hXsub : X.Sublist (dedupFirst cand) := by
      rw [hcandval]
      exact cleanups_sublist_dedup _
    have hdedup_sub : (dedupFirst cand).Sublist
        (dedupFirst (cand ++ ["general"])) :=
      dedupFirstAux_sublist_append cand [] ["general"]
    have hgen_mem : "general" ∈ dedupFirst (cand ++ ["general"]) :=
      mem_dedupFirstAux (cand ++ ["general"]) [] "general"
        (List.mem_append_right _ (List.mem_singleton.mpr rfl)) rfl
    rw [hcl]
    cases hE : X.isEmpty with
    | true =>
      simp only [if_true]
      refine ⟨by simp, by simp, by simp [validAgents], ?_⟩
      exact List.singleton_sublist.mpr hgen_mem
    | false =>
      simp only [Bool.false_eq_true, if_false]
      have hXne : X ≠ [] := by
        intro h
        rw [h] at hE
        simp at hE
      have hXD : X.Nodup :=
        (hXsub.trans hdedup_sub).nodup (dedupFirstAux_nodup _ []).1
      refine ⟨hXne, hXD, fun a ha => ?_, hXsub.trans hdedup_sub⟩
      have haV : a ∈ validatedAgents (fileSeed file
          ++ llmOrFallback (strStrip (lowerStr query)) llmOut) :=
        ((idaCleanup_sublist _).trans (cicpCleanup_sublist _)).mem ha
      have := (List.mem_filter.mp haV).2
      exact (listHas_iff _ _).mp this

theorem classify_agents_wellformed_witness :
    classify_agents "show me a chart" (some "pic.png") []
      (some ["cicp", "viz", "viz", "bogus"]) ≠ [] :=
  (classify_agents_wellformed "show me a chart" (some "pic.png") []
      (some ["cicp", "viz", "viz", "bogus"])).1

/-- C6: the claims agent excludes the generic vision and retrieval agents
from any classification result, and the design agent excludes the generic
vision agent. -/
theorem classify_agents_mutual_exclusion (query : String) (file : Option String)
    (history : List Msg) (llmOut : Option (List String)) :
    ("cicp" ∈ classify_agents query file history llmOut →
      "multimodal" ∉ classify_agents query file history llmOut
      ∧ "rag" ∉ classify_agents query file history llmOut)
    ∧ ("ida" ∈ classify_agents query file history llmOut →
      "multimodal" ∉ classify_agents query file history llmOut) := by
  by_cases hrag : ragOverride (strStrip (lowerStr query)) = true
  · have hcl : classify_agents query file history llmOut = ["rag"] := by
      simp [classify_agents, hrag]
    rw [hcl]
    constructor
    · intro h
      simp at h
    · intro h
      simp at h
  · have hrag' : ragOverride (strStrip (lowerStr query)) = false :=
      Bool.not_eq_true _ ▸ (by simpa using hrag)
    set V := validatedAgents (fileSeed file
      ++ llmOrFallback (strStrip (lowerStr query)) llmOut) with hV
    set C := cicpCleanup V with hC
    set I := idaCleanup C with hI
    have hcl : classify_agents query file history llmOut =
        if I.isEmpty then ["general"] else I := by
      simp [classify_agents, hrag', hV, hC, hI]
    rw [hcl]
    cases hE : I.isEmpty with
    | true =>
      simp only [if_true]
      constructor
      · intro h
        simp at h
      · intro h
        simp at h
    | false =>
      simp only [Bool.false_eq_true, if_false]
      constructor
      · intro hcicp
        have hcicpC : "cicp" ∈ C := (idaCleanup_sublist C).mem hcicp
        have hcicpV : "cicp" ∈ V := (cicpCleanup_sublist V).mem hcicpC
        have hCfil : C = V.filter (fun a => !(a == "multimodal") && !(a == "rag")) := by
          rw [hC]
          unfold cicpCleanup
          rw [if_pos ((listHas_iff _ _).mpr hcicpV)]
        constructor
        · intro hmm
          have hmC : "multimodal" ∈ C := (idaCleanup_sublist C).mem hmm
          rw [hCfil] at hmC
          have := (List.mem_filter.mp hmC).2
          simp at this
        · intro hrg
          have hrC : "rag" ∈ C := (idaCleanup_sublist C).mem hrg
          rw [hCfil] at hrC
          have := (List.mem_filter.mp hrC).2
          simp at this
      · intro hida
        cases hidaC : listHas C "ida" with
        | true =>
          have hIfil : I = C.filter (fun a => !(a == "multimodal")) := by
            rw [hI]
            unfold idaCleanup
            rw [if_pos hidaC]
          intro hmm
          rw [hIfil] at hmm
          have := (List.mem_filter.mp hmm).2
          simp at this
        | false =>
          have hIC : I = C := by
            rw [hI]
            unfold idaCleanup
            rw [if_neg (by simp [hidaC])]
          rw [hIC] at hida
          exact absurd ((listHas_iff C "ida").mpr hida) (by simp [hidaC])

theorem classify_agents_mutual_exclusion_witness :
    "multimodal" ∉ classify_agents "process my insurance claim" (some "pic.png") []
      (some ["cicp", "multimodal"]) :=
  ((classify_agents_mutual_exclusion "process my insurance claim" (some "pic.png") []
      (some ["cicp", "multimodal"])).1 (by decide)).1

/-- C7: an attached file with an image extension, absent the explicit
textual RAG override (the only text-driven route that bypasses the file
pre-filter) seeds the vision agent as the first candidate, ahead of the
semantic classification outcome. -/
theorem image_seeds_multimodal (query : String) (fp : String)
    (_history : List Msg) (llmOut : Option (List String))
    (himg : listHas imageExts (lowerStr (pathSuffix fp)) = true)
    (hrag : ragOverride (strStrip (lowerStr query)) = false) :
    ∃ rest, candidateList query (some fp) llmOut = "multimodal" :: rest := by
  refine ⟨llmOrFallback (strStrip (lowerStr query)) llmOut, ?_⟩
  simp [candidateList, hrag, fileSeed, himg]

theorem image_seeds_multimodal_witness :
    ∃ rest, candidateList "what is in this picture" (some "uploads/photo.jpg") none
      = "multimodal" :: rest :=
  image_seeds_multimodal "what is in this picture" "uploads/photo.jpg" [] none
    (by decide) (by decide)

/- ── CICP session lemmas (C3, C5, C8) ── -/

theorem cicpSkipStep_file (q fp : String) (s : CicpSession) :
    cicpSkipStep q (some fp) s = s := by
  unfold cicpSkipStep
  simp

theorem cicpReclassifyStep_file (q fp : String) (s : CicpSession) :
    cicpReclassifyStep q (some fp) s = s := by
  unfold cicpReclassifyStep
  simp

theorem cicpReclassifyStep_noamb (q : String) (f : Option String) (s : CicpSession)
    (h : s.lastAmbiguousImage = none) : cicpReclassifyStep q f s = s := by
  unfold cicpReclassifyStep
  rw [h]
  split <;> rfl

theorem cicpSkipStep_inv (q : String) (f : Option String) (s : CicpSession)
    (hs : CicpInv s) : CicpInv (cicpSkipStep q f s) := by
  unfold cicpSkipStep
  split
  · exact hs
  · exact hs

theorem cicpUploadStep_some (query fp : String) (s : CicpSession) :
    cicpUploadStep query (some fp) s =
      match classify_upload fp query with
      | some .claimForm => .inr { s with claim_form := some fp }
      | some .damageImage => .inr { s with damage_image := some fp }
      | some .policeReport => .inr { s with police_report := some fp }
      | none =>
        if listHas imageExts (lowerStr (pathSuffix fp)) then
          .inl (ambiguousPrompt (pathName fp), { s with lastAmbiguousImage := some fp })
        else .inr s := rfl

theorem cicpUploadStep_inv (query : String) (f : Option String) (s : CicpSession)
    (hs : CicpInv s) : CicpInv (postState (cicpUploadStep query f s)) := by
  cases f with
  | none => exact hs
  | some fp =>
    rw [cicpUploadStep_some]
    split
    · exact fun h => ⟨rfl, (hs h).2⟩
    · exact fun h => ⟨(hs h).1, rfl⟩
    · exact hs
    · split
      · exact hs
      · exact hs

theorem cicpReclassifyStep_some_amb (q : String) (s : CicpSession) (amb : String)
    (h : s.lastAmbiguousImage = some amb) :
    cicpReclassifyStep q none s =
      (if anyHint policeReportHints q then
        { s with police_report := some amb, lastAmbiguousImage := none }
      else if anyHint claimFormHints q then
        { s with claim_form := some amb, lastAmbiguousImage := none }
      else if anyHint damagePhotoHints q then
        { s with damage_image := some amb, lastAmbiguousImage := none }
      else s) := by
  unfold cicpReclassifyStep
  simp [h]

theorem cicpReclassifyStep_inv (q : String) (f : Option String) (s : CicpSession)
    (hs : CicpInv s) : CicpInv (cicpReclassifyStep q f s) := by
  cases f with
  | some fp =>
    rw [cicpReclassifyStep_file]
    exact hs
  | none =>
    cases hl : s.lastAmbiguousImage with
    | none =>
      rw [cicpReclassifyStep_noamb q none s hl]
      exact hs
    | some amb =>
      rw [cicpReclassifyStep_some_amb q s amb hl]
      split
      · exact hs
      · split
        · exact fun h => ⟨rfl, (hs h).2⟩
        · split
          · exact fun h => ⟨(hs h).1, rfl⟩
          · exact hs

theorem cicpPre_upload_inl (query : String) (f : Option String) (s0 : CicpSession)
    (out : String × CicpSession)
    (hu : cicpUploadStep query f (cicpSkipStep (strStrip (lowerStr query)) f s0) = .inl out) :
    cicpPre query f s0 = .inl out := by
  dsimp only [cicpPre]
  rw [hu]

theorem cicpPre_upload_inr (query : String) (f : Option String) (s0 : CicpSession)
    (s2 : CicpSession)
    (hu : cicpUploadStep query f (cicpSkipStep (strStrip (lowerStr query)) f s0) = .inr s2) :
    cicpPre query f s0 = cicpRoute (cicpReclassifyStep (strStrip (lowerStr query)) f s2) := by
  dsimp only [cicpPre]
  rw [hu]

theorem cicpRoute_inv (s3 : CicpSession) (hs : CicpInv s3) :
    CicpInv (postState (cicpRoute s3)) := by
  unfold cicpRoute
  split
  · exact hs
  · split
    · exact hs
    · split
      · exact hs
      · split
        · split
          · rename_i hcond _
            intro _
            simp only [Bool.and_eq_true] at hcond
            exact ⟨hcond.1.1.1, hcond.1.1.2⟩
          · exact hs
        · exact hs

theorem cicpPre_inv (query : String) (f : Option String) (s0 : CicpSession)
    (hs : CicpInv s0) : CicpInv (postState (cicpPre query f s0)) := by
  have h1 := cicpSkipStep_inv (strStrip (lowerStr query)) f s0 hs
  have h2 := cicpUploadStep_inv query f _ h1
  cases hu : cicpUploadStep query f (cicpSkipStep (strStrip (lowerStr query)) f s0) with
  | inl out =>
    rw [hu] at h2
    rw [cicpPre_upload_inl query f s0 out hu]
    exact h2
  | inr s2 =>
    rw [hu] at h2
    rw [cicpPre_upload_inr query f s0 s2 hu]
    exact cicpRoute_inv _ (cicpReclassifyStep_inv (strStrip (lowerStr query)) f s2 h2)

theorem cicp_invoke_inv (query : String) (f : Option String) (s0 : CicpSession)
    (pipe : Except String String) (hs : CicpInv s0) :
    CicpInv (cicp_invoke query f s0 pipe).2 := by
  unfold cicp_invoke
  have h := cicpPre_inv query f s0 hs
  cases hp : cicpPre query f s0 with
  | inl out =>
    rw [hp] at h
    cases out with
    | mk o s' => exact h
  | inr s' =>
    rw [hp] at h
    cases pipe with
    | ok d =>
      show CicpInv initSession
      intro habs
      exact absurd habs (by decide)
    | error e => exact h

/-- C8: starting from the initial all-empty record, every finite sequence
of CICP invoke calls preserves the invariant that `police_report_asked`
is only true when both `claim_form` and `damage_image` are populated. -/
theorem cicp_session_invariant
    (trace : List (String × Option String × Except String String)) :
    CicpInv (trace.foldl (fun s t => (cicp_invoke t.1 t.2.1 s t.2.2).2) initSession) := by
  suffices h : ∀ (tr : List (String × Option String × Except String String))
      (s : CicpSession), CicpInv s →
      CicpInv (tr.foldl (fun s t => (cicp_invoke t.1 t.2.1 s t.2.2).2) s) from
    h trace initSession (fun habs => absurd habs (by decide))
  intro tr
  induction tr with
  | nil => exact fun s hs => hs
  | cons t ts ih =>
    intro s hs
    exact ih _ (cicp_invoke_inv t.1 t.2.1 s t.2.2 hs)

theorem cicp_session_invariant_witness :
    (([("here is my claim form", (some "u/claim.pdf", Except.error "")),
       ("this is the damage photo", (some "u/car.jpg", Except.error ""))] :
        List (String × Option String × Except String String)).foldl
      (fun s t => (cicp_invoke t.1 t.2.1 s t.2.2).2) initSession).claim_form.isSome = true :=
  (cicp_session_invariant
    [("here is my claim form", (some "u/claim.pdf", Except.error "")),
     ("this is the damage photo", (some "u/car.jpg", Except.error ""))]
    (by decide)).1

theorem cicpSkipStep_ready (q : String) (f : Option String) (s : CicpSession)
    (hr : ReadyToProcess s) : ReadyToProcess (cicpSkipStep q f s) := by
  unfold cicpSkipStep
  split
  · exact ⟨hr.1, hr.2.1, Or.inr rfl⟩
  · exact hr

theorem cicpReclassifyStep_ready (q : String) (f : Option String) (s : CicpSession)
    (hr : ReadyToProcess s) : ReadyToProcess (cicpReclassifyStep q f s) := by
  cases f with
  | some fp =>
    rw [cicpReclassifyStep_file]
    exact hr
  | none =>
    cases hl : s.lastAmbiguousImage with
    | none =>
      rw [cicpReclassifyStep_noamb q none s hl]
      exact hr
    | some amb =>
      rw [cicpReclassifyStep_some_amb q s amb hl]
      split
      · exact ⟨hr.1, hr.2.1, Or.inl rfl⟩
      · split
        · exact ⟨rfl, hr.2.1, hr.2.2⟩
        · split
          · exact ⟨hr.1, rfl, hr.2.2⟩
          · exact hr

theorem cicpRoute_ready (s3 : CicpSession) (hr : ReadyToProcess s3) :
    cicpRoute s3 = .inr s3 := by
  unfold cicpRoute
  rcases hr.2.2 with hp | hk
  · simp [hr.1, hr.2.1, hp]
  · simp [hr.1, hr.2.1, hk]

/-- In a `READY_TO_PROCESS` configuration, a file-less turn always reaches
the pipeline, with a still-ready session state. -/
theorem cicpPre_ready (query : String) (s0 : CicpSession) (hr : ReadyToProcess s0) :
    ∃ s', cicpPre query none s0 = .inr s' ∧ ReadyToProcess s' := by
  have hr1 := cicpSkipStep_ready (strStrip (lowerStr query)) none s0 hr
  have hu : cicpUploadStep query none (cicpSkipStep (strStrip (lowerStr query)) none s0)
      = .inr (cicpSkipStep (strStrip (lowerStr query)) none s0) := rfl
  have hr3 := cicpReclassifyStep_ready (strStrip (lowerStr query)) none _ hr1
  refine ⟨_, ?_, hr3⟩
  rw [cicpPre_upload_inr query none s0 _ hu, cicpRoute_ready _ hr3]

/-- C3: for every `READY_TO_PROCESS` session, a (file-less) turn runs the
pipeline; on success the invoke call returns the decision and the session
record is reset to all-empty (all three slots `none`, both booleans
`false`); on a pipeline exception the invoke call returns the formatted
error message — it does not raise — and the session record is exactly the
state it had when the pipeline started (in particular still ready, so the
user can retry). -/
theorem cicp_ready_pipeline (query : String) (s0 : CicpSession)
    (hr : ReadyToProcess s0) :
    ∃ s', cicpPre query none s0 = .inr s'
      ∧ (∀ d, cicp_invoke query none s0 (.ok d) = (d, initSession))
      ∧ (∀ e, cicp_invoke query none s0 (.error e) = (processingErrorMsg e, s'))
      ∧ ReadyToProcess s'
      ∧ initSession.claim_form = none ∧ initSession.damage_image = none
      ∧ initSession.police_report = none ∧ initSession.police_report_asked = false
      ∧ initSession.police_report_skipped = false := by
  obtain ⟨s', hpre, hready⟩ := cicpPre_ready query s0 hr
  refine ⟨s', hpre, fun d => ?_, fun e => ?_, hready, rfl, rfl, rfl, rfl, rfl⟩
  · unfold cicp_invoke
    rw [hpre]
  · unfold cicp_invoke
    rw [hpre]

/- ── Per-turn computation lemmas for the collection flow (C5) ── -/

theorem cicp_invoke_claim_only (q fp : String) (s : CicpSession)
    (pipe : Except String String)
    (hc : classify_upload fp q = some .claimForm)
    (hdm : s.damage_image.isSome = false) :
    cicp_invoke q (some fp) s pipe
      = (formReceivedPrompt (pathName fp), { s with claim_form := some fp }) := by
  have hu : cicpUploadStep q (some fp) (cicpSkipStep (strStrip (lowerStr q)) (some fp) s)
      = .inr { s with claim_form := some fp } := by
    rw [cicpSkipStep_file, cicpUploadStep_some, hc]
  have hpre := cicpPre_upload_inr q (some fp) s _ hu
  rw [cicpReclassifyStep_file] at hpre
  have hroute : cicpRoute { s with claim_form := some fp }
      = .inl (formReceivedPrompt (pathName fp), { s with claim_form := some fp }) := by
    unfold cicpRoute
    simp [hdm]
  unfold cicp_invoke
  rw [hpre, hroute]

theorem cicp_invoke_damage_only (q fp : String) (s : CicpSession)
    (pipe : Except String String)
    (hc : classify_upload fp q = some .damageImage)
    (hcf : s.claim_form.isSome = false) :
    cicp_invoke q (some fp) s pipe
      = (photoReceivedPrompt (pathName fp), { s with damage_image := some fp }) := by
  have hu : cicpUploadStep q (some fp) (cicpSkipStep (strStrip (lowerStr q)) (some fp) s)
      = .inr { s with damage_image := some fp } := by
    rw [cicpSkipStep_file, cicpUploadStep_some, hc]
  have hpre := cicpPre_upload_inr q (some fp) s _ hu
  rw [cicpReclassifyStep_file] at hpre
  have hroute : cicpRoute { s with damage_image := some fp }
      = .inl (photoReceivedPrompt (pathName fp), { s with damage_image := some fp }) := by
    unfold cicpRoute
    simp [hcf]
  unfold cicp_invoke
  rw [hpre, hroute]

theorem cicp_invoke_damage_completing (q fp : String) (s : CicpSession)
    (pipe : Except String String)
    (hc : classify_upload fp q = some .damageImage)
    (hcf : s.claim_form.isSome = true)
    (hpol : s.police_report.isSome = false)
    (hskip : s.police_report_skipped = false)
    (hasked : s.police_report_asked = false) :
    cicp_invoke q (some fp) s pipe
      = (policePrompt (pathName (s.claim_form.getD "")) (pathName fp),
         { s with damage_image := some fp, police_report_asked := true }) := by
  have hu : cicpUploadStep q (some fp) (cicpSkipStep (strStrip (lowerStr q)) (some fp) s)
      = .inr { s with damage_image := some fp } := by
    rw [cicpSkipStep_file, cicpUploadStep_some, hc]
  have hpre := cicpPre_upload_inr q (some fp) s _ hu
  rw [cicpReclassifyStep_file] at hpre
  have hroute : cicpRoute { s with damage_image := some fp }
      = .inl (policePrompt (pathName (s.claim_form.getD "")) (pathName fp),
              { s with damage_image := some fp, police_report_asked := true }) := by
    unfold cicpRoute
    simp [hcf, hpol, hskip, hasked]
  unfold cicp_invoke
  rw [hpre, hroute]

theorem cicp_invoke_claim_completing (q fp : String) (s : CicpSession)
    (pipe : Except String String)
    (hc : classify_upload fp q = some .claimForm)
    (hdm : s.damage_image.isSome = true)
    (hpol : s.police_report.isSome = false)
    (hskip : s.police_report_skipped = false)
    (hasked : s.police_report_asked = false) :
    cicp_invoke q (some fp) s pipe
      = (policePrompt (pathName fp) (pathName (s.damage_image.getD "")),
         { s with claim_form := some fp, police_report_asked := true }) := by
  have hu : cicpUploadStep q (some fp) (cicpSkipStep (strStrip (lowerStr q)) (some fp) s)
      = .inr { s with claim_form := some fp } := by
    rw [cicpSkipStep_file, cicpUploadStep_some, hc]
  have hpre := cicpPre_upload_inr q (some fp) s _ hu
  rw [cicpReclassifyStep_file] at hpre
  have hroute : cicpRoute { s with claim_form := some fp }
      = .inl (policePrompt (pathName fp) (pathName (s.damage_image.getD "")),
              { s with claim_form := some fp, police_report_asked := true }) := by
    unfold cicpRoute
    simp [hdm, hpol, hskip, hasked]
  unfold cicp_invoke
  rw [hpre, hroute]

theorem cicp_invoke_police_ready (q fp : String) (s : CicpSession) (d : String)
    (hc : classify_upload fp q = some .policeReport)
    (hcf : s.claim_form.isSome = true)
    (hdm : s.damage_image.isSome = true) :
    cicp_invoke q (some fp) s (.ok d) = (d, initSession) := by
  have hu : cicpUploadStep q (some fp) (cicpSkipStep (strStrip (lowerStr q)) (some fp) s)
      = .inr { s with police_report := some fp } := by
    rw [cicpSkipStep_file, cicpUploadStep_some, hc]
  have hpre := cicpPre_upload_inr q (some fp) s _ hu
  rw [cicpReclassifyStep_file] at hpre
  have hroute : cicpRoute { s with police_report := some fp }
      = .inr { s with police_report := some fp } := by
    unfold cicpRoute
    simp [hcf, hdm]
  unfold cicp_invoke
  rw [hpre, hroute]

theorem cicp_invoke_skip_ready (q : String) (s : CicpSession) (d : String)
    (h4 : anyHint skipPoliceHints (strStrip (lowerStr q)) = true)
    (hcf : s.claim_form.isSome = true)
    (hdm : s.damage_image.isSome = true)
    (hasked : s.police_report_asked = true)
    (hskip : s.police_report_skipped = false)
    (hamb : s.lastAmbiguousImage = none) :
    cicp_invoke q none s (.ok d) = (d, initSession) := by
  have hs1 : cicpSkipStep (strStrip (lowerStr q)) none s
      = { s with police_report_skipped := true } := by
    unfold cicpSkipStep
    simp [hasked, hskip, h4]
  have hu : cicpUploadStep q none (cicpSkipStep (strStrip (lowerStr q)) none s)
      = .inr (cicpSkipStep (strStrip (lowerStr q)) none s) := rfl
  have hpre := cicpPre_upload_inr q none s _ hu
  rw [hs1, cicpReclassifyStep_noamb _ _ _ (by simpa using hamb)] at hpre
  have hroute : cicpRoute { s with police_report_skipped := true }
      = .inr { s with police_report_skipped := true } := by
    unfold cicpRoute
    simp [hcf, hdm]
  unfold cicp_invoke
  rw [hpre, hroute]

/-- C5: starting from the empty claims session, uploading a turn classified
as the claim form and a turn classified as the damage image — in either
order — leaves both slots populated with those files and produces the
police-report request (the `AWAITING_POLICE_REPORT_DECISION` response);
from that configuration, either a turn whose upload classifies as the
police report or a file-less turn carrying a skip phrase runs the full
pipeline on that very turn (`READY_TO_PROCESS`), its answer being the
decision of the pipeline. -/
theorem cicp_collection_flow (q1 f1 q2 f2 q3 f3 q4 : String)
    (h1 : classify_upload f1 q1 = some .claimForm)
    (h2 : classify_upload f2 q2 = some .damageImage)
    (h3 : classify_upload f3 q3 = some .policeReport)
    (h4 : anyHint skipPoliceHints (strStrip (lowerStr q4)) = true)
    (pipe1 pipe2 : Except String String) :
    (cicp_invoke q2 (some f2) (cicp_invoke q1 (some f1) initSession pipe1).2 pipe2
        = (policePrompt (pathName f1) (pathName f2),
           ⟨some f1, some f2, none, true, false, none⟩))
    ∧ (cicp_invoke q1 (some f1) (cicp_invoke q2 (some f2) initSession pipe1).2 pipe2
        = (policePrompt (pathName f1) (pathName f2),
           ⟨some f1, some f2, none, true, false, none⟩))
    ∧ (∀ d, cicp_invoke q3 (some f3) ⟨some f1, some f2, none, true, false, none⟩ (.ok d)
        = (d, initSession))
    ∧ (∀ d, cicp_invoke q4 none ⟨some f1, some f2, none, true, false, none⟩ (.ok d)
        = (d, initSession)) := by
  refine ⟨?_, ?_, fun d => ?_, fun d => ?_⟩
  · rw [cicp_invoke_claim_only q1 f1 initSession pipe1 h1 rfl]
    show cicp_invoke q2 (some f2) { initSession with claim_form := some f1 } pipe2 = _
    rw [cicp_invoke_damage_completing q2 f2 { initSession with claim_form := some f1 }
      pipe2 h2 rfl rfl rfl rfl]
    rfl
  · rw [cicp_invoke_damage_only q2 f2 initSession pipe1 h2 rfl]
    show cicp_invoke q1 (some f1) { initSession with damage_image := some f2 } pipe2 = _
    rw [cicp_invoke_claim_completing q1 f1 { initSession with damage_image := some f2 }
      pipe2 h1 rfl rfl rfl rfl]
    rfl
  · exact cicp_invoke_police_ready q3 f3 _ d h3 rfl rfl
  · exact cicp_invoke_skip_ready q4 _ d h4 rfl rfl rfl rfl rfl

theorem cicp_collection_flow_witness :
    cicp_invoke "skip" none ⟨some "u/claim.pdf", some "u/car.jpg", none, true, false, none⟩
      (.ok "DECISION") = ("DECISION", initSession) :=
  (cicp_collection_flow "here is my claim form" "u/claim.pdf"
      "this is the damage photo" "u/car.jpg"
      "here is the police report" "u/report.pdf" "skip"
      (by decide) (by decide) (by decide) (by decide)
      (.error "") (.error "")).2.2.2 "DECISION"

theorem cicp_ready_pipeline_witness :
    cicp_invoke "process the claim" none
      ⟨some "u/claim.pdf", some "u/car.jpg", none, true, true, none⟩
      (.ok "DECISION") = ("DECISION", initSession) := by
  obtain ⟨s', hpre, hok, herr, hrest⟩ := cicp_ready_pipeline "process the claim"
    ⟨some "u/claim.pdf", some "u/car.jpg", none, true, true, none⟩
    (by exact ⟨rfl, rfl, Or.inr rfl⟩)
  exact hok "DECISION"

end Maaah
